import Mathlib

/-!
Shallow embedding of `src/reclaimer.h` (hazard-pointer reclamation substrate).

Modelling conventions:
- A raw address (`void*` value) is a `Nat`; a slot's published pointer is an
  `Option Nat`, with `none` standing for `nullptr`.
- The slot registry (`HazardPointerList`) stores its slots as a list indexed
  by allocation order: index 0 is the sentinel allocated by the constructor,
  and each new slot pushed onto the linked-list head is appended at the end.
  The chain as traversed from `head` is therefore `slots.reverse`.
- A destroyer (`std::function<void(void*)>`) is identified by a `Nat` tag;
  an invocation `delete_func(ptr)` is recorded as an event `(tag, ptr)`.
- The model is sequential: each operation is a pure function of the state.
  The thread-exit spin wait is modelled by the result `blocked` when a
  pending address stays published in the (fixed) registry.
-/

namespace Reclaimer

/-- Model of a raw `void*` value that is not `nullptr`. -/
abbrev Addr := Nat

/-- One protection slot (`struct HazardPointer`): an ownership flag
(`std::atomic_flag flag`), a published pointer (`std::atomic<void*> ptr`,
`none` = `nullptr`), with the chain link represented by list structure. -/
structure HazardPointer where
  flag : Bool
  ptr : Option Addr
deriving DecidableEq, Repr

/-- A freshly constructed slot: `HazardPointer() : ptr(nullptr)`, flag clear. -/
def HazardPointer.init : HazardPointer := ⟨false, none⟩

/-- The slot registry (`struct HazardPointerList`): slots in allocation order
(the chain from `head` is `slots.reverse`) and the atomic `size` counter. -/
structure HazardPointerList where
  slots : List HazardPointer
  size : Nat
deriving DecidableEq, Repr

/-- Constructor `HazardPointerList() : head(new HazardPointer())`: one sentinel slot is
allocated by the constructor; the `size` member is not incremented for it
(modelled as starting at zero). -/
def HazardPointerList.init : HazardPointerList := ⟨[HazardPointer.init], 0⟩

/-- Model of `get_size()`: load of the `size` counter. -/
def HazardPointerList.get_size (l : HazardPointerList) : Nat := l.size

/-- A deferred-reclamation record (`struct ReclaimNode`): the deferred pointer
and the destroyer tag (`none` = the default-constructed empty function). The
pool link `next` is represented by list structure. -/
structure ReclaimNode where
  ptr : Option Addr
  delete_func : Option Nat
deriving DecidableEq, Repr

/-- Constructor `ReclaimNode() : ptr(nullptr), delete_func(nullptr)`. -/
def ReclaimNode.init : ReclaimNode := ⟨none, none⟩

/-- The thread-private free list (`struct ReclaimPool`); `nodes` lists the
chain from `head`. -/
structure ReclaimPool where
  nodes : List ReclaimNode
deriving DecidableEq, Repr

/-- Constructor `ReclaimPool() : head(new ReclaimNode())`: one sentinel node. -/
def ReclaimPool.init : ReclaimPool := ⟨[ReclaimNode.init]⟩

/-- Model of `ReclaimPool::Push`: link `node` in front of `head`. -/
def ReclaimPool.Push (pool : ReclaimPool) (node : ReclaimNode) : ReclaimPool :=
  ⟨node :: pool.nodes⟩

/-- Model of `ReclaimPool::Pop`: if `head->next == nullptr` (a single node remains),
allocate and return a fresh node leaving the pool unchanged; otherwise unlink
and return the head node. -/
def ReclaimPool.Pop (pool : ReclaimPool) : ReclaimNode × ReclaimPool :=
  match pool.nodes with
  | [] => (ReclaimNode.init, ⟨[]⟩)
  | [n] => (ReclaimNode.init, ⟨[n]⟩)
  | n :: rest => (n, ⟨rest⟩)

/-- Per-thread engine state (`class Reclaimer`): the acquired slots
(`std::vector<HazardPointer*> hazard_pointers_`, stored as allocation-order
indices into the registry's `slots`), the pending map
(`std::unordered_map<void*, ReclaimNode*> reclaim_map_`, stored as an
association list), and the pool (`reclaim_pool_`). -/
structure ReclaimerState where
  hazard_pointers_ : List Nat
  reclaim_map_ : List (Addr × ReclaimNode)
  reclaim_pool_ : ReclaimPool
deriving DecidableEq, Repr

/-- Constructor `Reclaimer(hazard_pointer_list)`: empty vector, empty map, fresh pool. -/
def ReclaimerState.init : ReclaimerState := ⟨[], [], ReclaimPool.init⟩

/-- Model of `kCoefficient = 4 + 1 / 4` — the C++ expression uses integer division,
so `1 / 4 = 0`; the model reproduces it with `Nat` division. -/
def kCoefficient : Nat := 4 + 1 / 4

/-- Overwrite the ownership flag of the slot at allocation index `id`. -/
def setFlag : List HazardPointer → Nat → Bool → List HazardPointer
  | [], _, _ => []
  | s :: rest, 0, b => ⟨b, s.ptr⟩ :: rest
  | s :: rest, id + 1, b => s :: setFlag rest id b

/-- Overwrite the published pointer of the slot at allocation index `id`
(the store in `MarkHazard`). -/
def setPtr : List HazardPointer → Nat → Option Addr → List HazardPointer
  | [], _, _ => []
  | s :: rest, 0, v => ⟨s.flag, v⟩ :: rest
  | s :: rest, id + 1, v => s :: setPtr rest id v

/-- Published pointer of the slot at allocation index `id` (`none` when the
index is out of range or the slot publishes `nullptr`). -/
def slotPtrAt (l : HazardPointerList) (id : Nat) : Option Addr :=
  (l.slots.get? id).bind (·.ptr)

/-- Position (from the chain head) of the first slot whose `flag.test_and_set()`
returns previously clear, along the given chain-ordered slot list. -/
def findFreePos : List HazardPointer → Option Nat
  | [] => none
  | s :: rest => if s.flag then (findFreePos rest).map (· + 1) else some 0

/-- The registry half of `TryAcquireHazardPointer`: scan the chain from `head`
and claim the first idle slot; if none is idle, allocate a new owned slot,
`size.fetch_add(1)`, and CAS-push it onto `head`. Returns the new registry and
the allocation index of the claimed slot. -/
def acquireSlot (l : HazardPointerList) : HazardPointerList × Nat :=
  match findFreePos l.slots.reverse with
  | some pos =>
      let id := l.slots.length - 1 - pos
      (⟨setFlag l.slots id true, l.size⟩, id)
  | none =>
      (⟨l.slots ++ [⟨true, none⟩], l.size + 1⟩, l.slots.length)

/-- Model of `TryAcquireHazardPointer(index)`: `assert(index <= hazard_pointers_.size())`
(modelled as returning `none` on violation); return if the index already has a
slot; otherwise claim or allocate a slot and `push_back` it. -/
def TryAcquireHazardPointer (l : HazardPointerList) (hps : List Nat)
    (index : Nat) : Option (HazardPointerList × List Nat) :=
  if index > hps.length then none
  else if index < hps.length then some (l, hps)
  else
    let (l1, id) := acquireSlot l
    some (l1, hps ++ [id])

/-- Model of `MarkHazard(index, ptr)`: acquire a slot for `index` if needed, then store
`ptr` into `hazard_pointers_[index]->ptr`. `none` models an assertion failure
or out-of-range access. -/
def MarkHazard (l : HazardPointerList) (r : ReclaimerState) (index : Nat)
    (p : Option Addr) : Option (HazardPointerList × ReclaimerState) :=
  match TryAcquireHazardPointer l r.hazard_pointers_ index with
  | none => none
  | some (l1, hps) =>
      match hps.get? index with
      | none => none
      | some id =>
          some (⟨setPtr l1.slots id p, l1.size⟩,
                { r with hazard_pointers_ := hps })

/-- Model of `GetHazardPtr(index)`: acquire a slot for `index` if needed, then load
`hazard_pointers_[index]->ptr`. -/
def GetHazardPtr (l : HazardPointerList) (r : ReclaimerState) (index : Nat) :
    Option (HazardPointerList × ReclaimerState × Option Addr) :=
  match TryAcquireHazardPointer l r.hazard_pointers_ index with
  | none => none
  | some (l1, hps) =>
      match hps.get? index with
      | none => none
      | some id =>
          some (l1, { r with hazard_pointers_ := hps }, slotPtrAt l1 id)

/-- Model of `ReclaimLater(ptr, func)`: pop a node from the pool, fill it with the
pointer and destroyer, and `insert` it into `reclaim_map_` keyed by the
pointer (`std::unordered_map::insert` leaves an existing key unchanged). -/
def ReclaimLater (r : ReclaimerState) (a : Addr) (f : Nat) : ReclaimerState :=
  let popped := r.reclaim_pool_.Pop
  let newMap :=
    if (r.reclaim_map_.lookup a).isSome then r.reclaim_map_
    else r.reclaim_map_ ++ [(a, (⟨some a, some f⟩ : ReclaimNode))]
  { r with reclaim_map_ := newMap, reclaim_pool_ := popped.2 }

/-- The `not_allow_delete_set` built by `ReclaimNoHazardPointer`: every
non-null pointer published in a slot of the chain from `head`. -/
def observedSet (l : HazardPointerList) : List Addr :=
  l.slots.reverse.filterMap (·.ptr)

/-- The sweep loop of `ReclaimNoHazardPointer`: walk `reclaim_map_`; an entry
whose address is in the observed set is kept; otherwise `delete_func(ptr)` is
invoked (recorded as an event), the node is pushed back to the pool, and the
entry is erased. Returns the remaining map, the final pool, and the events. -/
def reclaimLoop (obs : List Addr) :
    List (Addr × ReclaimNode) → ReclaimPool →
    List (Addr × ReclaimNode) × ReclaimPool × List (Nat × Option Addr)
  | [], pool => ([], pool, [])
  | (a, node) :: rest, pool =>
      if obs.contains a then
        let res := reclaimLoop obs rest pool
        ((a, node) :: res.1, res.2.1, res.2.2)
      else
        let res := reclaimLoop obs rest (pool.Push node)
        (res.1, res.2.1, (node.delete_func.getD 0, node.ptr) :: res.2.2)

/-- Model of `ReclaimNoHazardPointer()`: return immediately while
`reclaim_map_.size() < kCoefficient * hazard_pointer_list_.get_size()`;
otherwise build the observed set from every slot reachable from `head` and
sweep the pending map. Returns the new per-thread state and the list of
destroyer invocations. -/
def ReclaimNoHazardPointer (l : HazardPointerList) (r : ReclaimerState) :
    ReclaimerState × List (Nat × Option Addr) :=
  if r.reclaim_map_.length < kCoefficient * l.get_size then (r, [])
  else
    let res := reclaimLoop (observedSet l) r.reclaim_map_ r.reclaim_pool_
    ({ r with reclaim_map_ := res.1, reclaim_pool_ := res.2.1 }, res.2.2)

/-- Model of `Hazard(ptr)`: walk the chain from `head` and report whether any slot
currently publishes `ptr`. -/
def Hazard (l : HazardPointerList) (a : Addr) : Bool :=
  l.slots.any (fun s => s.ptr == some a)

/-- Clear the ownership flag of every acquired slot (phase 1 of the
destructor, after the assertions pass). -/
def clearFlags (slots : List HazardPointer) : List Nat → List HazardPointer
  | [] => slots
  | id :: rest => clearFlags (setFlag slots id false) rest

/-- Outcome of `~Reclaimer()`: `assertFail` when an acquired slot still
publishes a non-null pointer; `blocked` when the spin wait on a still-hazard
address never ends (the registry is fixed in this sequential model); `ok` with
the final registry slots, the drained (empty) map, and the destroyer
invocations. -/
inductive DtorResult where
  | assertFail
  | blocked
  | ok (l : HazardPointerList) (finalMap : List (Addr × ReclaimNode))
      (events : List (Nat × Option Addr))
deriving DecidableEq, Repr

/-- Phase 2 of the destructor: for each pending entry, spin until its address
is no longer hazard (here: fail with `none` if it is hazard, since the
registry cannot change), then invoke the destroyer and erase the entry. -/
def drainLoop (slots : List HazardPointer) :
    List (Addr × ReclaimNode) → Option (List (Nat × Option Addr))
  | [] => some []
  | (a, node) :: rest =>
      if slots.any (fun s => s.ptr == some a) then none
      else (drainLoop slots rest).map ((node.delete_func.getD 0, node.ptr) :: ·)

/-- Destructor `~Reclaimer()`: (1) for every acquired slot assert its published pointer
is null, then clear its flag; (2) drain every pending entry, waiting out any
still-hazard address, invoking each destroyer and deleting each node. -/
def destructor (l : HazardPointerList) (r : ReclaimerState) : DtorResult :=
  if r.hazard_pointers_.any (fun id => (slotPtrAt l id).isSome) then
    .assertFail
  else
    let slots1 := clearFlags l.slots r.hazard_pointers_
    match drainLoop slots1 r.reclaim_map_ with
    | none => .blocked
    | some ev => .ok ⟨slots1, l.size⟩ [] ev

/-- Combined state: the shared registry and one thread's `Reclaimer`. -/
structure SysState where
  list : HazardPointerList
  reclaimer : ReclaimerState
deriving DecidableEq, Repr

/-- Operations of the system, as seen from one thread: its own API calls,
plus the registry effects of other threads (slot acquisition, the flag clear
of a slot handover at thread exit, a publish into a foreign slot). -/
inductive Op where
  | markHazard (index : Nat) (p : Option Addr)
  | getHazardPtr (index : Nat)
  | reclaimLater (a : Addr) (f : Nat)
  | scan
  | otherAcquire
  | otherRelease (id : Nat)
  | otherPublish (id : Nat) (p : Option Addr)
deriving DecidableEq, Repr

/-- Effect of one operation on the combined state (an operation whose
assertion fails leaves the state unchanged; destroyer events are dropped
here, where only the state evolution matters). -/
def applyOp (s : SysState) : Op → SysState
  | .markHazard index p =>
      match MarkHazard s.list s.reclaimer index p with
      | none => s
      | some (l, r) => ⟨l, r⟩
  | .getHazardPtr index =>
      match GetHazardPtr s.list s.reclaimer index with
      | none => s
      | some (l, r, _) => ⟨l, r⟩
  | .reclaimLater a f => ⟨s.list, ReclaimLater s.reclaimer a f⟩
  | .scan => ⟨s.list, (ReclaimNoHazardPointer s.list s.reclaimer).1⟩
  | .otherAcquire => ⟨(acquireSlot s.list).1, s.reclaimer⟩
  | .otherRelease id =>
      ⟨⟨setFlag s.list.slots id false, s.list.size⟩, s.reclaimer⟩
  | .otherPublish id p =>
      ⟨⟨setPtr s.list.slots id p, s.list.size⟩, s.reclaimer⟩

/-- A sequence of operations applied in order. -/
def applyOps (s : SysState) : List Op → SysState
  | [] => s
  | op :: rest => applyOps (applyOp s op) rest

/-- The state reached from a fresh registry and a fresh `Reclaimer`. -/
def runOps (ops : List Op) : SysState :=
  applyOps ⟨HazardPointerList.init, ReclaimerState.init⟩ ops

/-- Operations on a `ReclaimPool` in isolation. -/
inductive PoolOp where
  | push (n : ReclaimNode)
  | pop
deriving DecidableEq, Repr

/-- Effect of one pool operation (`Pop` discards the returned node). -/
def applyPoolOp (p : ReclaimPool) : PoolOp → ReclaimPool
  | .push n => p.Push n
  | .pop => (p.Pop).2

/-- A sequence of pool operations applied in order. -/
def applyPoolOps (p : ReclaimPool) : List PoolOp → ReclaimPool
  | [] => p
  | op :: rest => applyPoolOps (applyPoolOp p op) rest

/-- A registry as produced by four slot allocations after construction:
the sentinel plus four owned slots, none publishing, `size = 4`. -/
def regFour : HazardPointerList :=
  ⟨HazardPointer.init :: List.replicate 4 ⟨true, none⟩, 4⟩

/-- Sixteen pending entries with distinct non-null addresses `1..16`, all
deferred with destroyer tag `0`. -/
def pendingSixteen : List (Addr × ReclaimNode) :=
  (List.range 16).map (fun k => (k + 1, ⟨some (k + 1), some 0⟩))

/-- A per-thread state holding the sixteen pending entries. -/
def recSixteen : ReclaimerState := ⟨[1, 2, 3, 4], pendingSixteen, ReclaimPool.init⟩

/-! ### Helper lemmas -/

theorem length_setFlag (slots : List HazardPointer) (id : Nat) (b : Bool) :
    (setFlag slots id b).length = slots.length := by
  induction slots generalizing id with
  | nil => rfl
  | cons s rest ih =>
    cases id with
    | zero => rfl
    | succ n => simpa [setFlag] using ih n

theorem length_setPtr (slots : List HazardPointer) (id : Nat) (v : Option Addr) :
    (setPtr slots id v).length = slots.length := by
  induction slots generalizing id with
  | nil => rfl
  | cons s rest ih =>
    cases id with
    | zero => rfl
    | succ n => simpa [setPtr] using ih n

theorem get?_setFlag_self (slots : List HazardPointer) (id : Nat) (b : Bool) :
    (setFlag slots id b).get? id =
      (slots.get? id).map (fun s => ⟨b, s.ptr⟩) := by
  induction slots generalizing id with
  | nil => cases id <;> rfl
  | cons s rest ih =>
    cases id with
    | zero => rfl
    | succ n => simpa [setFlag] using ih n

theorem get?_setPtr_self (slots : List HazardPointer) (id : Nat) (v : Option Addr) :
    (setPtr slots id v).get? id =
      (slots.get? id).map (fun s => ⟨s.flag, v⟩) := by
  induction slots generalizing id with
  | nil => cases id <;> rfl
  | cons s rest ih =>
    cases id with
    | zero => rfl
    | succ n => simpa [setPtr] using ih n

theorem findFreePos_some (chain : List HazardPointer) (pos : Nat)
    (h : findFreePos chain = some pos) :
    pos < chain.length ∧
    (∃ s, chain.get? pos = some s ∧ s.flag = false) ∧
    (∀ i, i < pos → ∃ t, chain.get? i = some t ∧ t.flag = true) := by
  induction chain generalizing pos with
  | nil => simp [findFreePos] at h
  | cons s rest ih =>
    by_cases hf : s.flag
    · rw [findFreePos, if_pos hf] at h
      obtain ⟨q, hq, rfl⟩ := Option.map_eq_some'.mp h
      obtain ⟨h1, h2, h3⟩ := ih q hq
      refine ⟨by simpa using h1, by simpa using h2, ?_⟩
      intro i hi
      cases i with
      | zero => exact ⟨s, rfl, hf⟩
      | succ j => exact h3 j (by omega)
    · rw [findFreePos, if_neg hf] at h
      obtain rfl : (0 : Nat) = pos := Option.some_inj.mp h
      exact ⟨by simp, ⟨s, rfl, by simpa using hf⟩, fun i hi => by omega⟩

theorem findFreePos_none (chain : List HazardPointer)
    (h : findFreePos chain = none) : ∀ s ∈ chain, s.flag = true := by
  induction chain with
  | nil => intro s hs; simp at hs
  | cons s rest ih =>
    by_cases hf : s.flag
    · rw [findFreePos, if_pos hf] at h
      intro t ht
      rcases List.mem_cons.mp ht with rfl | ht
      · exact hf
      · exact ih (by simpa using h) t ht
    · rw [findFreePos, if_neg hf] at h
      exact absurd h (by simp)

theorem reclaimLoop_eq (obs : List Addr) (m : List (Addr × ReclaimNode)) :
    ∀ pool : ReclaimPool,
    reclaimLoop obs m pool =
      (m.filter (fun e => obs.contains e.1),
       ⟨((m.filter (fun e => !obs.contains e.1)).map (·.2)).reverse
          ++ pool.nodes⟩,
       (m.filter (fun e => !obs.contains e.1)).map
         (fun e => (e.2.delete_func.getD 0, e.2.ptr))) := by
  induction m with
  | nil => intro pool; simp [reclaimLoop]
  | cons e rest ih =>
    intro pool
    obtain ⟨a, node⟩ := e
    by_cases hc : a ∈ obs
    · simp [reclaimLoop, hc, ih, List.filter_cons]
    · simp [reclaimLoop, hc, ih, List.filter_cons, ReclaimPool.Push]

theorem drainLoop_eq (slots : List HazardPointer)
    (m : List (Addr × ReclaimNode))
    (h : ∀ e ∈ m, slots.any (fun s => s.ptr == some e.1) = false) :
    drainLoop slots m =
      some (m.map (fun e => (e.2.delete_func.getD 0, e.2.ptr))) := by
  induction m with
  | nil => rfl
  | cons e rest ih =>
    obtain ⟨a, node⟩ := e
    rw [drainLoop, if_neg (by simp [h (a, node) (by simp)]),
      ih (fun e he => h e (List.mem_cons_of_mem _ he))]
    rfl

theorem acquireSlot_counts (l : HazardPointerList) :
    ((acquireSlot l).1.slots.length = l.slots.length ∧
       (acquireSlot l).1.size = l.size) ∨
    ((acquireSlot l).1.slots.length = l.slots.length + 1 ∧
       (acquireSlot l).1.size = l.size + 1) := by
  unfold acquireSlot
  cases h : findFreePos l.slots.reverse with
  | some pos => exact Or.inl ⟨length_setFlag .., rfl⟩
  | none => exact Or.inr ⟨by simp, rfl⟩

theorem TryAcquireHazardPointer_counts (l : HazardPointerList)
    (hps : List Nat) (index : Nat) (l1 : HazardPointerList) (hps1 : List Nat)
    (h : TryAcquireHazardPointer l hps index = some (l1, hps1)) :
    (l1.slots.length = l.slots.length ∧ l1.size = l.size) ∨
    (l1.slots.length = l.slots.length + 1 ∧ l1.size = l.size + 1) := by
  unfold TryAcquireHazardPointer at h
  split at h
  · exact absurd h (by simp)
  · split at h
    · obtain ⟨rfl, rfl⟩ := Prod.mk.injEq .. ▸ Option.some_inj.mp h
      exact Or.inl ⟨rfl, rfl⟩
    · obtain ⟨rfl, rfl⟩ := Prod.mk.injEq .. ▸ Option.some_inj.mp h
      exact acquireSlot_counts l

theorem MarkHazard_counts (l : HazardPointerList) (r : ReclaimerState)
    (index : Nat) (p : Option Addr) (l1 : HazardPointerList)
    (r1 : ReclaimerState) (h : MarkHazard l r index p = some (l1, r1)) :
    (l1.slots.length = l.slots.length ∧ l1.size = l.size) ∨
    (l1.slots.length = l.slots.length + 1 ∧ l1.size = l.size + 1) := by
  unfold MarkHazard at h
  split at h
  · exact absurd h (by simp)
  next l2 hps htry =>
    split at h
    · exact absurd h (by simp)
    next id hget =>
      obtain ⟨rfl, rfl⟩ := Prod.mk.injEq .. ▸ Option.some_inj.mp h
      have := TryAcquireHazardPointer_counts l r.hazard_pointers_ index
        l2 hps htry
      simpa [length_setPtr] using this

theorem GetHazardPtr_state (l : HazardPointerList) (r : ReclaimerState)
    (index : Nat) (l1 : HazardPointerList) (r1 : ReclaimerState)
    (v : Option Addr) (h : GetHazardPtr l r index = some (l1, r1, v)) :
    TryAcquireHazardPointer l r.hazard_pointers_ index
      = some (l1, r1.hazard_pointers_) := by
  unfold GetHazardPtr at h
  split at h
  · exact absurd h (by simp)
  next l2 hps htry =>
    split at h
    · exact absurd h (by simp)
    next id hget =>
      rw [Option.some_inj] at h
      obtain ⟨rfl, rfl, rfl⟩ := Prod.mk.injEq .. ▸ h
      exact htry

theorem applyOp_counts (s : SysState) (op : Op)
    (hinv : s.list.size + 1 = s.list.slots.length) :
    (applyOp s op).list.size + 1 = (applyOp s op).list.slots.length := by
  cases op with
  | markHazard index p =>
    rw [applyOp]
    cases h : MarkHazard s.list s.reclaimer index p with
    | none => exact hinv
    | some pr =>
      obtain ⟨l1, r1⟩ := pr
      rcases MarkHazard_counts s.list s.reclaimer index p l1 r1 h with
        ⟨h1, h2⟩ | ⟨h1, h2⟩ <;> simp [h1, h2] <;> omega
  | getHazardPtr index =>
    rw [applyOp]
    cases h : GetHazardPtr s.list s.reclaimer index with
    | none => exact hinv
    | some pr =>
      obtain ⟨l1, r1, v⟩ := pr
      have htry := GetHazardPtr_state s.list s.reclaimer index l1 r1 v h
      rcases TryAcquireHazardPointer_counts s.list s.reclaimer.hazard_pointers_
          index l1 r1.hazard_pointers_ htry with ⟨h1, h2⟩ | ⟨h1, h2⟩ <;>
        simp [h1, h2] <;> omega
  | reclaimLater a f => exact hinv
  | scan => exact hinv
  | otherAcquire =>
    rw [applyOp]
    rcases acquireSlot_counts s.list with ⟨h1, h2⟩ | ⟨h1, h2⟩ <;>
      simp [h1, h2] <;> omega
  | otherRelease id => simpa [applyOp, length_setFlag] using hinv
  | otherPublish id p => simpa [applyOp, length_setPtr] using hinv

theorem applyOps_counts (ops : List Op) (s : SysState)
    (hinv : s.list.size + 1 = s.list.slots.length) :
    (applyOps s ops).list.size + 1 = (applyOps s ops).list.slots.length := by
  induction ops generalizing s with
  | nil => exact hinv
  | cons op rest ih => exact ih (applyOp s op) (applyOp_counts s op hinv)

theorem applyOp_size_mono (s : SysState) (op : Op) :
    s.list.size ≤ (applyOp s op).list.size := by
  cases op with
  | markHazard index p =>
    rw [applyOp]
    cases h : MarkHazard s.list s.reclaimer index p with
    | none => exact Nat.le_refl _
    | some pr =>
      obtain ⟨l1, r1⟩ := pr
      rcases MarkHazard_counts s.list s.reclaimer index p l1 r1 h with
        ⟨_, h2⟩ | ⟨_, h2⟩ <;> simp [h2]
  | getHazardPtr index =>
    rw [applyOp]
    cases h : GetHazardPtr s.list s.reclaimer index with
    | none => exact Nat.le_refl _
    | some pr =>
      obtain ⟨l1, r1, v⟩ := pr
      have htry := GetHazardPtr_state s.list s.reclaimer index l1 r1 v h
      rcases TryAcquireHazardPointer_counts s.list s.reclaimer.hazard_pointers_
          index l1 r1.hazard_pointers_ htry with ⟨_, h2⟩ | ⟨_, h2⟩ <;>
        simp [h2]
  | reclaimLater a f => exact Nat.le_refl _
  | scan => exact Nat.le_refl _
  | otherAcquire =>
    rw [applyOp]
    rcases acquireSlot_counts s.list with ⟨_, h2⟩ | ⟨_, h2⟩ <;> simp [h2]
  | otherRelease id => exact Nat.le_refl _
  | otherPublish id p => exact Nat.le_refl _

theorem applyOps_size_mono (ops : List Op) (s : SysState) :
    s.list.size ≤ (applyOps s ops).list.size := by
  induction ops generalizing s with
  | nil => exact Nat.le_refl _
  | cons op rest ih =>
    exact Nat.le_trans (applyOp_size_mono s op) (ih (applyOp s op))

theorem applyPoolOps_ne_nil (ops : List PoolOp) (p : ReclaimPool)
    (h : p.nodes ≠ []) : (applyPoolOps p ops).nodes ≠ [] := by
  induction ops generalizing p with
  | nil => exact h
  | cons op rest ih =>
    refine ih _ ?_
    cases op with
    | push n => simp [applyPoolOp, ReclaimPool.Push]
    | pop =>
      obtain ⟨nodes⟩ := p
      match nodes with
      | [] => exact absurd rfl h
      | [n] => simp [applyPoolOp, ReclaimPool.Pop]
      | a :: b :: rest2 => simp [applyPoolOp, ReclaimPool.Pop]

theorem acquireSlot_cases (l : HazardPointerList) :
    (∃ s, l.slots.get? (acquireSlot l).2 = some s ∧ s.flag = false ∧
       (∀ j, (acquireSlot l).2 < j → j < l.slots.length →
          ∃ t, l.slots.get? j = some t ∧ t.flag = true) ∧
       (acquireSlot l).1 = ⟨setFlag l.slots (acquireSlot l).2 true, l.size⟩)
    ∨ ((∀ s ∈ l.slots, s.flag = true) ∧
       (acquireSlot l).2 = l.slots.length ∧
       (acquireSlot l).1 = ⟨l.slots ++ [⟨true, none⟩], l.size + 1⟩) := by
  cases hfp : findFreePos l.slots.reverse with
  | some pos =>
    left
    obtain ⟨h1, ⟨s, hs, hflag⟩, h3⟩ := findFreePos_some _ _ hfp
    rw [List.length_reverse] at h1
    have hid : (acquireSlot l).2 = l.slots.length - 1 - pos := by
      simp [acquireSlot, hfp]
    have hl1 : (acquireSlot l).1
        = ⟨setFlag l.slots (l.slots.length - 1 - pos) true, l.size⟩ := by
      simp [acquireSlot, hfp]
    rw [hid, hl1]
    refine ⟨s, ?_, hflag, ?_, rfl⟩
    · rw [← List.get?_reverse h1]
      exact hs
    · intro j hj hjlen
      have hi : l.slots.length - 1 - j < pos := by omega
      obtain ⟨t, hti, htf⟩ := h3 _ hi
      refine ⟨t, ?_, htf⟩
      rw [List.get?_reverse (by omega : l.slots.length - 1 - j < l.slots.length)]
        at hti
      have : l.slots.length - 1 - (l.slots.length - 1 - j) = j := by omega
      rwa [this] at hti
  | none =>
    right
    refine ⟨?_, by simp [acquireSlot, hfp], by simp [acquireSlot, hfp]⟩
    intro s hs
    exact findFreePos_none _ hfp s (List.mem_reverse.mpr hs)

/-! ### Claim theorems -/

/-- C1: once the scan threshold is met, `ReclaimNoHazardPointer` builds the
observed set holding exactly the non-null pointers currently published in the
slots reachable from the registry head; every pending entry whose address is
not observed has its destroyer invoked, its node pushed back to the pool, and
is removed; every observed entry stays in the pending map untouched, its
destroyer not invoked. -/
theorem reclaimNoHazardPointer_sweep (l : HazardPointerList)
    (r : ReclaimerState)
    (h : kCoefficient * l.get_size ≤ r.reclaim_map_.length) :
    (∀ a : Addr, a ∈ observedSet l ↔ ∃ s ∈ l.slots, s.ptr = some a) ∧
    (ReclaimNoHazardPointer l r).1.reclaim_map_ =
      r.reclaim_map_.filter (fun e => (observedSet l).contains e.1) ∧
    (ReclaimNoHazardPointer l r).2 =
      (r.reclaim_map_.filter (fun e => !(observedSet l).contains e.1)).map
        (fun e => (e.2.delete_func.getD 0, e.2.ptr)) ∧
    (ReclaimNoHazardPointer l r).1.reclaim_pool_.nodes =
      ((r.reclaim_map_.filter (fun e => !(observedSet l).contains e.1)).map
          (·.2)).reverse ++ r.reclaim_pool_.nodes ∧
    (ReclaimNoHazardPointer l r).1.hazard_pointers_ = r.hazard_pointers_ := by
  have hcond : ¬ (r.reclaim_map_.length < kCoefficient * l.get_size) := by
    omega
  have hmain : ReclaimNoHazardPointer l r =
      ({ r with
          reclaim_map_ :=
            r.reclaim_map_.filter (fun e => (observedSet l).contains e.1),
          reclaim_pool_ :=
            ⟨((r.reclaim_map_.filter
                  (fun e => !(observedSet l).contains e.1)).map
                (·.2)).reverse ++ r.reclaim_pool_.nodes⟩ },
       (r.reclaim_map_.filter (fun e => !(observedSet l).contains e.1)).map
         (fun e => (e.2.delete_func.getD 0, e.2.ptr))) := by
    rw [ReclaimNoHazardPointer, if_neg hcond]
    simp [reclaimLoop_eq]
  refine ⟨?_, by simp [hmain], by simp [hmain], by simp [hmain],
    by simp [hmain]⟩
  intro a
  simp [observedSet]

/-- C1 witness: with a fresh registry (size 0, threshold met trivially) and
one unobserved pending entry, the sweep empties the map and invokes the
entry's destroyer on its address. -/
theorem reclaimNoHazardPointer_sweep_witness :
    (ReclaimNoHazardPointer HazardPointerList.init
        ⟨[], [(5, ⟨some 5, some 9⟩)], ReclaimPool.init⟩).1.reclaim_map_ = []
    ∧ (ReclaimNoHazardPointer HazardPointerList.init
        ⟨[], [(5, ⟨some 5, some 9⟩)], ReclaimPool.init⟩).2 = [(9, some 5)] :=
  ⟨(reclaimNoHazardPointer_sweep HazardPointerList.init
      ⟨[], [(5, ⟨some 5, some 9⟩)], ReclaimPool.init⟩
      (by decide)).2.1.trans (by decide),
   (reclaimNoHazardPointer_sweep HazardPointerList.init
      ⟨[], [(5, ⟨some 5, some 9⟩)], ReclaimPool.init⟩
      (by decide)).2.2.1.trans (by decide)⟩

/-- C2 (code bug): the source writes `kCoefficient = 4 + 1 / 4`, intending
the documented coefficient of about 4.25, but integer division makes it
exactly 4; with registry size 4 and 16 pending entries — strictly below the
4.25 threshold of 17 — the scan nevertheless triggers and invokes all 16
destroyers instead of returning immediately. -/
theorem kCoefficient_is_four_not_four_point_two_five :
    kCoefficient = 4 ∧
    pendingSixteen.length = 16 ∧
    regFour.get_size = 4 ∧
    4 * pendingSixteen.length < 17 * regFour.get_size ∧
    (ReclaimNoHazardPointer regFour recSixteen).2.length = 16 :=
  ⟨rfl, by decide, rfl, by decide, by decide⟩

/-- C9: the pool is constructed holding one node, `Push` always adds one
node, `Pop` on a single-node pool returns a freshly allocated node and
leaves the pool unchanged, and after every sequence of `Push`/`Pop`
operations the pool's list is non-empty. -/
theorem reclaimPool_never_empty :
    ReclaimPool.init.nodes.length = 1 ∧
    (∀ (p : ReclaimPool) (n : ReclaimNode),
       (p.Push n).nodes.length = p.nodes.length + 1) ∧
    (∀ (p : ReclaimPool) (n : ReclaimNode), p.nodes = [n] →
       p.Pop = (ReclaimNode.init, p)) ∧
    (∀ ops : List PoolOp, (applyPoolOps ReclaimPool.init ops).nodes ≠ []) := by
  refine ⟨rfl, fun p n => rfl, ?_, ?_⟩
  · intro p n hp
    obtain ⟨nodes⟩ := p
    simp only at hp
    subst hp
    rfl
  · intro ops
    exact applyPoolOps_ne_nil ops _ (by simp [ReclaimPool.init])

/-- C9 witness: `Pop` on the freshly constructed single-node pool. -/
theorem reclaimPool_never_empty_witness :
    ReclaimPool.Pop ⟨[ReclaimNode.init]⟩
      = (ReclaimNode.init, ⟨[ReclaimNode.init]⟩) :=
  reclaimPool_never_empty.2.2.1 ⟨[ReclaimNode.init]⟩ ReclaimNode.init rfl

/-- C4: at thread exit, an acquired slot still publishing a non-null pointer
is a fatal assertion; otherwise every acquired slot's ownership flag is
cleared, and then — with no threshold check — every remaining pending entry
is drained: once its address is published by no slot of the registry (the
spin wait), its destroyer is invoked exactly once and the entry removed,
leaving the pending map empty. -/
theorem destructor_drains_all (l : HazardPointerList) (r : ReclaimerState) :
    ((∃ id ∈ r.hazard_pointers_, (slotPtrAt l id).isSome) →
       destructor l r = .assertFail) ∧
    ((∀ id ∈ r.hazard_pointers_, slotPtrAt l id = none) →
     (∀ e ∈ r.reclaim_map_,
        Hazard ⟨clearFlags l.slots r.hazard_pointers_, l.size⟩ e.1 = false) →
       destructor l r =
         .ok ⟨clearFlags l.slots r.hazard_pointers_, l.size⟩ []
           (r.reclaim_map_.map
             (fun e => (e.2.delete_func.getD 0, e.2.ptr)))) := by
  constructor
  · rintro ⟨id, hmem, hsome⟩
    rw [destructor, if_pos (List.any_eq_true.mpr ⟨id, hmem, hsome⟩)]
  · intro hnull hnoh
    have hany : (r.hazard_pointers_.any
        (fun id => (slotPtrAt l id).isSome)) = false := by
      simp only [List.any_eq_false]
      intro id hid
      simp [hnull id hid]
    have hdrain : drainLoop (clearFlags l.slots r.hazard_pointers_)
        r.reclaim_map_
        = some (r.reclaim_map_.map
            (fun e => (e.2.delete_func.getD 0, e.2.ptr))) :=
      drainLoop_eq _ _ (fun e he => by simpa [Hazard] using hnoh e he)
    simp only [destructor, hany, Bool.false_eq_true, if_false, hdrain]

/-- C4 witness: a reclaimer with no acquired slots and one pending,
non-hazard entry drains it at destruction. -/
theorem destructor_drains_all_witness :
    destructor HazardPointerList.init
        ⟨[], [(7, ⟨some 7, some 3⟩)], ReclaimPool.init⟩
      = .ok ⟨[HazardPointer.init], 0⟩ [] [(3, some 7)] :=
  ((destructor_drains_all HazardPointerList.init
      ⟨[], [(7, ⟨some 7, some 3⟩)], ReclaimPool.init⟩).2
    (by decide) (by decide)).trans (by decide)

/-- C5: on the first use of a protection index, `TryAcquireHazardPointer`
either claims the first slot from the chain head whose ownership flag was
clear (every slot nearer the head is owned; registry size and slot count
unchanged) or, when every existing slot is owned, allocates a new owned
slot, increments the count, and pushes the slot onto the chain head. -/
theorem tryAcquire_first_use (l : HazardPointerList) (hps : List Nat)
    (index : Nat) (h : index = hps.length) :
    ∃ l1 id, TryAcquireHazardPointer l hps index = some (l1, hps ++ [id]) ∧
      ((∃ s, l.slots.get? id = some s ∧ s.flag = false ∧
          (∀ j, id < j → j < l.slots.length →
            ∃ t, l.slots.get? j = some t ∧ t.flag = true) ∧
          l1.slots = setFlag l.slots id true ∧ l1.size = l.size ∧
          l1.slots.length = l.slots.length) ∨
       ((∀ s ∈ l.slots, s.flag = true) ∧
          l1.slots = l.slots ++ [⟨true, none⟩] ∧ id = l.slots.length ∧
          l1.size = l.size + 1)) := by
  subst h
  have htry : TryAcquireHazardPointer l hps hps.length
      = some ((acquireSlot l).1, hps ++ [(acquireSlot l).2]) := by
    rw [TryAcquireHazardPointer, if_neg (by omega), if_neg (by omega)]
  refine ⟨(acquireSlot l).1, (acquireSlot l).2, htry, ?_⟩
  rcases acquireSlot_cases l with
    ⟨s, hget, hflag, hrest, hl1⟩ | ⟨hall, hid, hl1⟩
  · exact Or.inl ⟨s, hget, hflag, hrest,
      by rw [hl1], by rw [hl1], by rw [hl1]; exact length_setFlag ..⟩
  · exact Or.inr ⟨hall, by rw [hl1], hid, by rw [hl1]⟩

/-- C5 witness: a registry whose chain head (the later-allocated slot) is
free — first use of index 0 claims it without growing the registry. -/
theorem tryAcquire_first_use_witness :
    ∃ l1 id, TryAcquireHazardPointer
        (⟨[⟨true, none⟩, ⟨false, none⟩], 1⟩ : HazardPointerList) [] 0
        = some (l1, [] ++ [id]) ∧
      ((∃ s, (⟨[⟨true, none⟩, ⟨false, none⟩], 1⟩ :
            HazardPointerList).slots.get? id = some s ∧ s.flag = false ∧
          (∀ j, id < j → j < (⟨[⟨true, none⟩, ⟨false, none⟩], 1⟩ :
              HazardPointerList).slots.length →
            ∃ t, (⟨[⟨true, none⟩, ⟨false, none⟩], 1⟩ :
              HazardPointerList).slots.get? j = some t ∧ t.flag = true) ∧
          l1.slots = setFlag (⟨[⟨true, none⟩, ⟨false, none⟩], 1⟩ :
            HazardPointerList).slots id true ∧
          l1.size = (⟨[⟨true, none⟩, ⟨false, none⟩], 1⟩ :
            HazardPointerList).size ∧
          l1.slots.length = (⟨[⟨true, none⟩, ⟨false, none⟩], 1⟩ :
            HazardPointerList).slots.length) ∨
       ((∀ s ∈ (⟨[⟨true, none⟩, ⟨false, none⟩], 1⟩ :
            HazardPointerList).slots, s.flag = true) ∧
          l1.slots = (⟨[⟨true, none⟩, ⟨false, none⟩], 1⟩ :
            HazardPointerList).slots ++ [⟨true, none⟩] ∧
          id = (⟨[⟨true, none⟩, ⟨false, none⟩], 1⟩ :
            HazardPointerList).slots.length ∧
          l1.size = (⟨[⟨true, none⟩, ⟨false, none⟩], 1⟩ :
            HazardPointerList).size + 1)) :=
  tryAcquire_first_use ⟨[⟨true, none⟩, ⟨false, none⟩], 1⟩ [] 0 rfl

/-- C6 counterexample: with zero protection indices in use (`n = 0`), the
index `1 = n + 1` is allowed by the claim, yet
`assert(index <= hazard_pointers_.size())` fails (`1 <= 0` is false) and
`MarkHazard` cannot proceed. -/
theorem markHazard_np1_asserts :
    1 ≤ ReclaimerState.init.hazard_pointers_.length + 1 ∧
    MarkHazard HazardPointerList.init ReclaimerState.init 1 (some 5)
      = none := by
  decide

/-- C6 (amended): with `n` indices in use, `MarkHazard(index, ptr)` for any
index not exceeding `n` passes the assertion, accesses the acquired-slot
array only in bounds, and publishes `ptr` into that index's slot (indices
are registered sequentially: the only fresh index accepted is `n` itself). -/
theorem markHazard_in_bounds (l : HazardPointerList) (r : ReclaimerState)
    (index : Nat) (p : Option Addr)
    (h : index ≤ r.hazard_pointers_.length)
    (hids : ∀ id ∈ r.hazard_pointers_, id < l.slots.length) :
    ∃ l1 r1, MarkHazard l r index p = some (l1, r1) ∧
      index < r1.hazard_pointers_.length ∧
      ∃ id, r1.hazard_pointers_.get? index = some id ∧
        id < l1.slots.length ∧
        ∃ s, l1.slots.get? id = some s ∧ s.ptr = p := by
  rcases Nat.lt_or_ge index r.hazard_pointers_.length with hlt | hge
  · have htry : TryAcquireHazardPointer l r.hazard_pointers_ index
        = some (l, r.hazard_pointers_) := by
      rw [TryAcquireHazardPointer, if_neg (by omega), if_pos hlt]
    have hidlen : r.hazard_pointers_.get ⟨index, hlt⟩ < l.slots.length :=
      hids _ (List.get_mem r.hazard_pointers_ index hlt)
    refine ⟨⟨setPtr l.slots (r.hazard_pointers_.get ⟨index, hlt⟩) p, l.size⟩,
      { r with hazard_pointers_ := r.hazard_pointers_ }, ?_, hlt,
      r.hazard_pointers_.get ⟨index, hlt⟩, List.get?_eq_get hlt, ?_,
      ⟨(l.slots.get ⟨_, hidlen⟩).flag, p⟩, ?_, rfl⟩
    · simp only [MarkHazard, htry, List.get?_eq_get hlt]
    · simpa [length_setPtr] using hidlen
    · rw [get?_setPtr_self, List.get?_eq_get hidlen]
      rfl
  · have hidx : index = r.hazard_pointers_.length := by omega
    subst hidx
    have htry : TryAcquireHazardPointer l r.hazard_pointers_
        r.hazard_pointers_.length
        = some ((acquireSlot l).1,
            r.hazard_pointers_ ++ [(acquireSlot l).2]) := by
      rw [TryAcquireHazardPointer, if_neg (by omega), if_neg (by omega)]
    have hget : (r.hazard_pointers_ ++ [(acquireSlot l).2]).get?
        r.hazard_pointers_.length = some (acquireSlot l).2 :=
      List.get?_concat_length ..
    have hidlen : (acquireSlot l).2 < (acquireSlot l).1.slots.length := by
      rcases acquireSlot_cases l with
        ⟨s, hget2, _, _, hl1⟩ | ⟨_, hid, hl1⟩
      · rw [hl1]
        simp only [length_setFlag]
        exact List.get?_eq_some.mp hget2 |>.fst
      · rw [hl1, hid]
        simp
    rcases acquireSlot_cases l with
      ⟨s, hget2, hflag, _, hl1⟩ | ⟨_, hid, hl1⟩
    · refine ⟨⟨setPtr (acquireSlot l).1.slots (acquireSlot l).2 p,
        (acquireSlot l).1.size⟩,
        { r with hazard_pointers_ :=
            r.hazard_pointers_ ++ [(acquireSlot l).2] }, ?_,
        by simp, (acquireSlot l).2, hget, ?_, ⟨true, p⟩, ?_, rfl⟩
      · simp only [MarkHazard, htry, hget]
      · simpa [length_setPtr] using hidlen
      · rw [get?_setPtr_self, hl1, get?_setFlag_self, hget2]
        rfl
    · refine ⟨⟨setPtr (acquireSlot l).1.slots (acquireSlot l).2 p,
        (acquireSlot l).1.size⟩,
        { r with hazard_pointers_ :=
            r.hazard_pointers_ ++ [(acquireSlot l).2] }, ?_,
        by simp, (acquireSlot l).2, hget, ?_, ⟨true, p⟩, ?_, rfl⟩
      · simp only [MarkHazard, htry, hget]
      · simpa [length_setPtr] using hidlen
      · rw [get?_setPtr_self, hl1, hid]
        simp

/-- C6 witness: first use of index 0 on a fresh registry publishes the
pointer into the claimed slot. -/
theorem markHazard_in_bounds_witness :
    (0 ≤ ReclaimerState.init.hazard_pointers_.length) ∧
    ∃ l1 r1, MarkHazard HazardPointerList.init ReclaimerState.init 0
        (some 42) = some (l1, r1) ∧
      0 < r1.hazard_pointers_.length ∧
      ∃ id, r1.hazard_pointers_.get? 0 = some id ∧ id < l1.slots.length ∧
        ∃ s, l1.slots.get? id = some s ∧ s.ptr = some 42 :=
  ⟨by decide, markHazard_in_bounds HazardPointerList.init
    ReclaimerState.init 0 (some 42) (by decide) (by decide)⟩

/-- C7 counterexample: the freshly constructed registry has already created
one slot — the constructor's sentinel, reachable from `head` and claimable
by `TryAcquireHazardPointer` — yet `get_size` reports 0; after a first
acquisition (which claims that sentinel) the mismatch persists. -/
theorem registry_size_omits_sentinel :
    ((runOps []).list.slots.length = 1 ∧ (runOps []).list.get_size = 0) ∧
    ((runOps [.otherAcquire]).list.slots.length = 1 ∧
     (runOps [.otherAcquire]).list.get_size = 0) := by
  decide

/-- C7 (amended): across every operation sequence from a fresh registry,
`get_size` equals the number of slots ever created minus one: the count
tracks only the slots allocated on demand by `TryAcquireHazardPointer`,
not the constructor's sentinel (slots are never removed, so `slots.length`
is the number ever created). -/
theorem registry_size_counts_allocations (ops : List Op) :
    (runOps ops).list.get_size + 1 = (runOps ops).list.slots.length :=
  applyOps_counts ops _ (by decide)

/-- C8: the count returned by `get_size` never decreases: every system
operation — slot acquisition, slot release at thread exit, publish,
deferral, scan — leaves the registry count unchanged or increases it. -/
theorem registry_size_monotone (s : SysState) (ops : List Op) :
    s.list.get_size ≤ (applyOps s ops).list.get_size :=
  applyOps_size_mono ops s

/-- C10: `GetHazardPtr(index)` on an index not yet in use acquires a
protection slot for it through the same `TryAcquireHazardPointer` call that
`MarkHazard` makes (claiming a free slot or allocating a new one), and
returns the null pointer: a freshly allocated slot's published pointer is
initialized to null, and a free slot's published pointer is null because
release requires it (hypothesis `hfree`). -/
theorem getHazardPtr_first_use (l : HazardPointerList) (r : ReclaimerState)
    (index : Nat) (h : index = r.hazard_pointers_.length)
    (hfree : ∀ s ∈ l.slots, s.flag = false → s.ptr = none) :
    ∃ l1 hps1, TryAcquireHazardPointer l r.hazard_pointers_ index
        = some (l1, hps1) ∧
      GetHazardPtr l r index
        = some (l1, { r with hazard_pointers_ := hps1 }, none) ∧
      hps1.length = r.hazard_pointers_.length + 1 := by
  subst h
  have htry : TryAcquireHazardPointer l r.hazard_pointers_
      r.hazard_pointers_.length
      = some ((acquireSlot l).1,
          r.hazard_pointers_ ++ [(acquireSlot l).2]) := by
    rw [TryAcquireHazardPointer, if_neg (by omega), if_neg (by omega)]
  have hget : (r.hazard_pointers_ ++ [(acquireSlot l).2]).get?
      r.hazard_pointers_.length = some (acquireSlot l).2 :=
    List.get?_concat_length ..
  have hptr : slotPtrAt (acquireSlot l).1 (acquireSlot l).2 = none := by
    rcases acquireSlot_cases l with ⟨s, hget2, hflag, _, hl1⟩ | ⟨_, hid, hl1⟩
    · have hnull : s.ptr = none := hfree s (List.get?_mem hget2) hflag
      simp only [slotPtrAt, hl1, get?_setFlag_self, hget2]
      simp [hnull]
    · simp only [slotPtrAt, hl1, hid]
      simp [List.get?_concat_length]
  refine ⟨(acquireSlot l).1, r.hazard_pointers_ ++ [(acquireSlot l).2],
    htry, ?_, by simp⟩
  simp only [GetHazardPtr, htry, hget, hptr]

/-- C10 witness: first use of index 0 on a fresh registry (whose only free
slot, the sentinel, publishes null) returns the null pointer. -/
theorem getHazardPtr_first_use_witness :
    (0 = ReclaimerState.init.hazard_pointers_.length) ∧
    ∃ l1 hps1, TryAcquireHazardPointer HazardPointerList.init
        ReclaimerState.init.hazard_pointers_ 0 = some (l1, hps1) ∧
      GetHazardPtr HazardPointerList.init ReclaimerState.init 0
        = some (l1, { ReclaimerState.init with hazard_pointers_ := hps1 },
            none) ∧
      hps1.length = ReclaimerState.init.hazard_pointers_.length + 1 :=
  ⟨rfl, getHazardPtr_first_use HazardPointerList.init ReclaimerState.init 0
    rfl (by decide)⟩

end Reclaimer
